import Mathlib

/-!
# Verification of the chat-realtime-server routing core

Shallow embedding of the server's presence, room-membership and
message-routing logic. The primary model follows `src/index.js` (the
in-memory variant: `users`, `rooms` and `messageHistory` maps and the
socket event handlers). The database-backed variant's handlers
(`src/unnamed/part_001`) are embedded as functions parameterised over the
repository operations they call. JavaScript `Map`s are modelled as
association lists with `Map.get`/`Map.set` semantics.
-/

namespace Chat

/-- Kind tag carried in a message payload (`type: 'private' | 'group'`). -/
inductive PType where
  | priv
  | grp
deriving DecidableEq, Repr

/-- A message payload as built by the `send_private` / `send_group`
handlers in `src/index.js`: `{ id, from, to|roomId, message, timestamp, type }`.
The numeric id is modelled as a `Nat`; `target` holds `to` for private
messages and `roomId` for group messages. -/
structure Payload where
  pid : Nat
  from_ : String
  target : String
  message : String
  timestamp : String
  ptype : PType
deriving DecidableEq, Repr

/-- Per-user record stored in the `users` map of `src/index.js`:
`{ socketId, online, avatar, lastSeen }` plus the optional `status`
field added by the `update_status` handler. Timestamps are `Nat`. -/
structure UserInfo where
  socketId : Nat
  online : Bool
  avatar : Option String
  lastSeen : Nat
  status : Option String
deriving DecidableEq, Repr

/-- Room kind (`type: 'private' | 'group'`). -/
inductive RType where
  | priv
  | grp
deriving DecidableEq, Repr

/-- A room as stored in the `rooms` map of `src/index.js`:
`{ name, members, messages, type, createdBy, createdAt }`. -/
structure Room where
  name : String
  members : List String
  messages : List Payload
  rtype : RType
  createdBy : String
  createdAt : Nat
deriving DecidableEq, Repr

/-- Association-list lookup with JavaScript `Map.get` semantics. -/
def alGet {α : Type} (l : List (String × α)) (k : String) : Option α :=
  (l.find? (fun e => decide (e.1 = k))).map (fun e => e.2)

/-- Association-list update with JavaScript `Map.set` semantics: replace
the existing binding in place, or append a new one at the end. -/
def alSet {α : Type} (l : List (String × α)) (k : String) (v : α) :
    List (String × α) :=
  match l with
  | [] => [(k, v)]
  | e :: t => if e.1 = k then (k, v) :: t else e :: alSet t k v

/-- The whole mutable state of the in-memory server (`src/index.js`):
the `users`, `rooms` and `messageHistory` maps. -/
structure ServerState where
  users : List (String × UserInfo)
  rooms : List (String × Room)
  messageHistory : List (String × List Payload)
deriving DecidableEq, Repr

/-- An entry of the `user_list` payload built by `sendUserLists`. -/
structure UserListEntry where
  username : String
  online : Bool
  lastSeen : Nat
  avatar : Option String
  status : String
deriving DecidableEq, Repr

/-- Outbound socket events emitted by the handlers of `src/index.js`,
tagged with the destination socket id. -/
inductive OutEvent where
  | receivePrivate (sock : Nat) (p : Payload)
  | messageSent (sock : Nat) (p : Payload)
  | receiveGroup (sock : Nat) (p : Payload)
  | groupCreated (sock : Nat) (roomId : String) (groupName : String)
      (members : List String) (createdBy : String)
  | userList (sock : Nat) (entries : List UserListEntry)
  | messageHistoryEv (sock : Nat) (msgs : List Payload)
  | searchResults (sock : Nat) (msgs : List Payload)
deriving DecidableEq, Repr

/-- The message history stored for `userId` (empty when absent),
i.e. `messageHistory.get(userId) || []`. -/
def historyOf (st : ServerState) (userId : String) : List Payload :=
  (alGet st.messageHistory userId).getD []

/-- Append with the 1000-entry cap of `saveMessage` in `src/index.js`:
`messages.push(message); if (messages.length > 1000) messages.shift()`. -/
def pushCapped (msgs : List Payload) (m : Payload) : List Payload :=
  if 1000 < (msgs ++ [m]).length then (msgs ++ [m]).drop 1 else msgs ++ [m]

/-- `saveMessage(userId, message)` from `src/index.js` lines 240-253. -/
def saveMessage (st : ServerState) (userId : String) (m : Payload) :
    ServerState :=
  { st with
    messageHistory :=
      alSet st.messageHistory userId (pushCapped (historyOf st userId) m) }

/-- The per-viewer filtered user list computed inside `sendUserLists`
(`src/index.js` lines 256-271): all users except the viewer, with the
`status || 'available'` default. -/
def userListFor (st : ServerState) (viewer : String) : List UserListEntry :=
  (st.users.filter (fun e => decide (e.1 ≠ viewer))).map (fun e =>
    { username := e.1
      online := e.2.online
      lastSeen := e.2.lastSeen
      avatar := e.2.avatar
      status := e.2.status.getD "available" })

/-- `sendUserLists()` from `src/index.js`: for every registered user,
emit a `user_list` event to that user's stored socket with their own
filtered list. -/
def sendUserLists (st : ServerState) : List OutEvent :=
  st.users.map (fun e => OutEvent.userList e.2.socketId (userListFor st e.1))

/-- The `set_username` handler (`src/index.js` lines 50-65): overwrite the
user record with the new socket and `online: true`, send the stored
message history back, then refresh everyone's user list. -/
def setUsername (st : ServerState) (sock : Nat) (username : String)
    (avatar : Option String) (now : Nat) : ServerState × List OutEvent :=
  let st2 : ServerState :=
    { st with
      users := alSet st.users username
        { socketId := sock, online := true, avatar := avatar
          lastSeen := now, status := none } }
  (st2, OutEvent.messageHistoryEv sock (historyOf st2 username)
          :: sendUserLists st2)

/-- The `send_private` handler (`src/index.js` lines 68-95): build the
payload, save it to both the sender's and the target's history, deliver
to the target when online, and always acknowledge with `message_sent`.
The nondeterministic id and clock are passed in as `pid` and `ts`. -/
def sendPrivate (st : ServerState) (currentUser : String) (sock : Nat)
    (toUser msg : String) (pid : Nat) (ts : String) :
    ServerState × List OutEvent :=
  let payload : Payload :=
    { pid := pid, from_ := currentUser, target := toUser
      message := msg, timestamp := ts, ptype := PType.priv }
  let st1 := saveMessage st currentUser payload
  let st2 := saveMessage st1 toUser payload
  let deliver : List OutEvent :=
    match alGet st.users toUser with
    | some info =>
        if info.online then [OutEvent.receivePrivate info.socketId payload]
        else []
    | none => []
  (st2, deliver ++ [OutEvent.messageSent sock payload])

/-- The delivery-target lookup performed once per member name inside the
fan-out loops (`const user = users.get(member); if (user?.online) ...`):
the stored socket when the user is registered and online. -/
def onlineSocketOf (st : ServerState) (m : String) : Option Nat :=
  match alGet st.users m with
  | some info => if info.online then some info.socketId else none
  | none => none

/-- The `send_group` handler (`src/index.js` lines 98-128): silently
return when the room is unknown or the sender is not in `room.members`;
otherwise push the payload onto `room.messages` and emit `receive_group`
to the stored socket of every online entry of `room.members`. -/
def sendGroup (st : ServerState) (currentUser : String) (roomId msg : String)
    (pid : Nat) (ts : String) : ServerState × List OutEvent :=
  match alGet st.rooms roomId with
  | none => (st, [])
  | some room =>
    if currentUser ∈ room.members then
      let payload : Payload :=
        { pid := pid, from_ := currentUser, target := roomId
          message := msg, timestamp := ts, ptype := PType.grp }
      let st2 : ServerState :=
        { st with
          rooms := alSet st.rooms roomId
            { room with messages := room.messages ++ [payload] } }
      let evs : List OutEvent :=
        room.members.filterMap (fun m =>
          (onlineSocketOf st m).map
            (fun s => OutEvent.receiveGroup s payload))
      (st2, evs)
    else (st, [])

/-- The `create_group` handler (`src/index.js` lines 173-199): the member
list is `[...members, currentUser]` (no deduplication, no size check);
the room is always created and every online entry of the member list is
notified with `group_created`. The generated `group_${Date.now()}` id is
passed in as `roomId`. -/
def createGroup (st : ServerState) (currentUser : String)
    (groupName : String) (members : List String) (roomId : String)
    (now : Nat) : ServerState × List OutEvent :=
  let allMembers := members ++ [currentUser]
  let room : Room :=
    { name := groupName, members := allMembers, messages := []
      rtype := RType.grp, createdBy := currentUser, createdAt := now }
  let st2 : ServerState := { st with rooms := alSet st.rooms roomId room }
  let evs : List OutEvent :=
    allMembers.filterMap (fun m =>
      (onlineSocketOf st m).map
        (fun s => OutEvent.groupCreated s roomId groupName
          allMembers currentUser))
  (st2, evs)

/-- The `disconnect` handler (`src/index.js` lines 227-237): when the
socket's `currentUser` is set and still registered, mark them offline and
update `lastSeen`, unconditionally — the stored `socketId` is not
compared with the disconnecting socket. -/
def disconnectHandler (st : ServerState) (currentUser : Option String)
    (now : Nat) : ServerState × List OutEvent :=
  match currentUser with
  | none => (st, [])
  | some u =>
    match alGet st.users u with
    | none => (st, [])
    | some info =>
      let st2 : ServerState :=
        { st with
          users := alSet st.users u
            { info with online := false, lastSeen := now } }
      (st2, sendUserLists st2)

/-- Lower-casing of a string, character by character
(model of JavaScript `String.prototype.toLowerCase`). -/
def lowerStr (s : String) : String :=
  String.mk (s.data.map Char.toLower)

/-- `needle` is a prefix of `hay` (character lists). -/
def isPrefixL : List Char → List Char → Bool
  | [], _ => true
  | _ :: _, [] => false
  | a :: as, b :: bs => decide (a = b) && isPrefixL as bs

/-- Substring containment on character lists
(model of JavaScript `String.prototype.includes`). -/
def containsSub (hay needle : List Char) : Bool :=
  match hay with
  | [] => isPrefixL needle []
  | c :: t => isPrefixL needle (c :: t) || containsSub t needle

/-- The filter applied by the `search_messages` handler
(`src/index.js` lines 211-218):
`msg.message.toLowerCase().includes(query.toLowerCase())`. -/
def searchFilter (msgs : List Payload) (query : String) : List Payload :=
  msgs.filter (fun m =>
    containsSub (lowerStr m.message).data (lowerStr query).data)

/-- The `search_messages` handler: filter the requesting user's own
stored history and emit the matches as `search_results`. -/
def searchMessagesH (st : ServerState) (currentUser : String) (sock : Nat)
    (query : String) : List OutEvent :=
  [OutEvent.searchResults sock (searchFilter (historyOf st currentUser) query)]

/-! ## Database-backed variant (`src/unnamed/part_001`)

The handlers of the second server variant are embedded as functions
parameterised over the repository operations they call
(`roomRepository.isMember`, `roomRepository.getRoomMembers`,
`userRepository.findByUsername`, the `connectedUsers` map). The handler
control flow itself is translated from the source. User and room ids are
`Nat` (SQL integer primary keys). -/

/-- Outbound events of the database-backed variant, tagged with the
destination socket id. The first `Bool`-free payload components are the
persisted message id and the visible names/content. -/
inductive DbEvent where
  | errorEv (sock : Nat) (msg : String)
  | receivePrivateDb (sock : Nat) (pid : Nat) (fromName toName content : String)
  | messageSentDb (sock : Nat) (pid : Nat) (fromName toName content : String)
  | receiveGroupDb (sock : Nat) (pid : Nat) (fromName : String)
      (roomId : Nat) (content : String)
deriving DecidableEq, Repr

/-- The `send_group` handler of `src/unnamed/part_001` lines 343-385:
reject non-members with an `error` event before anything is persisted;
otherwise persist (the returned `Bool` records whether
`messageRepository.create` was reached) and fan out to the connected
sockets of `getRoomMembers roomId`. -/
def sendGroupDb (isMember : Nat → Nat → Bool)
    (getRoomMembers : Nat → List Nat) (connected : Nat → Option Nat)
    (uid : Nat) (uname : String) (sock : Nat) (roomId : Nat)
    (msg : String) (newMsgId : Nat) : Bool × List DbEvent :=
  if !(isMember roomId uid) then
    (false, [DbEvent.errorEv sock "Você não é membro deste grupo"])
  else
    (true,
      (getRoomMembers roomId).filterMap (fun m =>
        (connected m).map (fun msock =>
          DbEvent.receiveGroupDb msock newMsgId uname roomId msg)))

/-- The `send_private` handler of `src/unnamed/part_001` lines 294-340:
an unresolvable `to` username yields an `error` event and an early return
before anything is persisted; otherwise persist (`Bool` as above),
deliver to the target's connected socket when present, and acknowledge
with `message_sent`. -/
def sendPrivateDb (findByUsername : String → Option Nat)
    (connected : Nat → Option Nat) (uname : String) (sock : Nat)
    (toUser msg : String) (newMsgId : Nat) : Bool × List DbEvent :=
  match findByUsername toUser with
  | none => (false, [DbEvent.errorEv sock "Usuário não encontrado"])
  | some tid =>
    (true,
      (match connected tid with
       | some tsock => [DbEvent.receivePrivateDb tsock newMsgId uname toUser msg]
       | none => []) ++
      [DbEvent.messageSentDb sock newMsgId uname toUser msg])

/-- State of the spec-modelled private-room table: existing private rooms
as (room id, normalised participant pair) and the next fresh id. -/
structure PrivRooms where
  rooms : List (Nat × (Nat × Nat))
  nextId : Nat
deriving DecidableEq, Repr

/-- The unordered pair of two user ids, normalised with the smaller
component first. -/
def pairKey (a b : Nat) : Nat × Nat :=
  if a ≤ b then (a, b) else (b, a)

/-- Modelled from the spec: `RoomRepository.createOrFindPrivateRoom` is
called by the `send_private` handler of `src/unnamed/part_001` but the
repository implementation is not part of the repository snapshot. Per
spec §4.2 it is keyed by the unordered pair of the two participant ids,
returns the existing room id when the pair already has a room and
otherwise creates exactly one new room, and fails with `ValidationError`
when the two ids are equal. -/
def createOrFindPrivateRoom (st : PrivRooms) (a b : Nat) :
    Except String (PrivRooms × Nat) :=
  if a = b then Except.error "ValidationError"
  else
    match st.rooms.find? (fun r => decide (r.2 = pairKey a b)) with
    | some r => Except.ok (st, r.1)
    | none =>
        Except.ok
          ({ rooms := st.rooms ++ [(st.nextId, pairKey a b)]
             nextId := st.nextId + 1 },
           st.nextId)

/-- A user row of the database-backed variant, as exposed to presence
broadcasts. -/
structure DbUser where
  uid : Nat
  username : String
  online : Bool
deriving DecidableEq, Repr

/-- Modelled from the spec: `UserRepository.findOnlineUsers` is called by
`broadcastUsersList` in `src/unnamed/part_001` but the repository
implementation is not part of the repository snapshot; per its name and
its call sites ("Enviar lista de usuários online para todos") it returns
the known users whose online flag is set. -/
def findOnlineUsers (userRows : List DbUser) : List DbUser :=
  userRows.filter (fun u => u.online)

/-- `broadcastUsersList` of `src/unnamed/part_001` lines 264-271:
`io.emit("user_list", onlineUsers)` — one identical list is sent to every
connected socket. -/
def broadcastUsersList (userRows : List DbUser)
    (connectedSockets : List Nat) : List (Nat × List DbUser) :=
  connectedSockets.map (fun s => (s, findOnlineUsers userRows))

/-! ## Auxiliary counting helpers and concrete fixture states -/

/-- Sockets receiving a `receive_group` delivery among a list of events. -/
def deliveredSockets (evs : List OutEvent) : List Nat :=
  evs.filterMap (fun e =>
    match e with
    | OutEvent.receiveGroup s _ => some s
    | _ => none)

/-- Number of `receive_group` deliveries addressed to socket `s`. -/
def countReceiveGroupTo (evs : List OutEvent) (s : Nat) : Nat :=
  evs.countP (fun e =>
    match e with
    | OutEvent.receiveGroup s2 _ => decide (s2 = s)
    | _ => false)

/-- Fixture user record: online at socket 1. -/
def uOnline1 : UserInfo :=
  { socketId := 1, online := true, avatar := none, lastSeen := 0, status := none }

/-- Fixture user record: online at socket 2. -/
def uOnline2 : UserInfo :=
  { socketId := 2, online := true, avatar := none, lastSeen := 0, status := none }

/-- Fixture room whose only member is `"b"`. -/
def roomC1 : Room :=
  { name := "g", members := ["b"], messages := [], rtype := RType.grp
    createdBy := "b", createdAt := 0 }

/-- Fixture state for C1: users `"a"` and `"b"` online, room `"r"` with
member list `["b"]` only. -/
def stC1 : ServerState :=
  { users := [("a", uOnline1), ("b", uOnline2)]
    rooms := [("r", roomC1)]
    messageHistory := [] }

/-- Fixture payload used to pre-fill a room history. -/
def pFill : Payload :=
  { pid := 0, from_ := "a", target := "r", message := "m", timestamp := "t"
    ptype := PType.grp }

/-- Fixture room for C2, already holding 1000 messages. -/
def roomC2 : Room :=
  { name := "g", members := ["a"], messages := List.replicate 1000 pFill
    rtype := RType.grp, createdBy := "a", createdAt := 0 }

/-- Fixture state for C2: user `"a"` online and a group room `"r"` whose
history already holds 1000 messages. -/
def stC2 : ServerState :=
  { users := [("a", uOnline1)], rooms := [("r", roomC2)]
    messageHistory := [] }

/-- Fixture for C3: the state after `"a"` registers at socket 1, then
re-registers at socket 2 (a newer connection). -/
def stC3pre : ServerState :=
  (setUsername
    ((setUsername
      ({ users := [], rooms := [], messageHistory := [] } : ServerState)
      1 "a" none 0).1)
    2 "a" none 1).1

/-- Fixture for C3: the state after the stale socket-1 session's
`disconnect` handler subsequently runs on `stC3pre`
(its closure still has `currentUser = "a"`). -/
def stC3post : ServerState :=
  (disconnectHandler stC3pre (some "a") 2).1

/-- Fixture state for C4/C5: a single online user `"a"` at socket 1. -/
def stA : ServerState :=
  { users := [("a", uOnline1)], rooms := [], messageHistory := [] }

/-- Fixture payload produced by the C7 counterexample send. -/
def pC7 : Payload :=
  { pid := 5, from_ := "a", target := "ghost", message := "hi"
    timestamp := "t", ptype := PType.priv }

/-- Fixture payload produced by the C10 self-send. -/
def pC10 : Payload :=
  { pid := 5, from_ := "a", target := "a", message := "hi"
    timestamp := "t", ptype := PType.priv }

/-- Fixture DB user rows for C8: two online users. -/
def dbUsersC8 : List DbUser :=
  [{ uid := 1, username := "a", online := true },
   { uid := 2, username := "b", online := true }]

/-- No two registered users share a socket id (the steady state of the
single-connection-per-user registry; used as a side condition for the
fan-out counting property). -/
def socketsInjective (st : ServerState) : Prop :=
  st.users.Pairwise (fun e1 e2 => e1.2.socketId ≠ e2.2.socketId)

/-- Fixture user record: offline, last socket 3. -/
def uOffline3 : UserInfo :=
  { socketId := 3, online := false, avatar := none, lastSeen := 0
    status := none }

/-- Fixture room for the C5 witness: duplicate-free member list with two
online members and one offline member. -/
def roomC5 : Room :=
  { name := "g", members := ["a", "b", "c"], messages := []
    rtype := RType.grp, createdBy := "a", createdAt := 0 }

/-- Fixture state for the C5 witness. -/
def stC5 : ServerState :=
  { users := [("a", uOnline1), ("b", uOnline2), ("c", uOffline3)]
    rooms := [("rw", roomC5)]
    messageHistory := [] }

/-- Fixture state for the C5 counterexample: the reachable state created
by `create_group` with creator `"a"` and member argument `["a"]` — the
stored member list is `["a", "a"]`. -/
def stC5dup : ServerState :=
  (createGroup stA "a" "g" ["a"] "r1" 0).1

end Chat

namespace Chat

/-! ## Association-list lemmas -/

theorem alGet_alSet_same {α : Type} (l : List (String × α)) (k : String)
    (v : α) : alGet (alSet l k v) k = some v := by
  induction l with
  | nil => simp [alSet, alGet, List.find?]
  | cons e t ih =>
    by_cases h : e.1 = k
    · simp [alSet, h, alGet, List.find?]
    · simpa [alSet, h, alGet, List.find?] using ih

theorem alGet_alSet_other {α : Type} (l : List (String × α)) (k k' : String)
    (v : α) (h : k' ≠ k) : alGet (alSet l k v) k' = alGet l k' := by
  have hkk : ¬(k = k') := fun he => h he.symm
  induction l with
  | nil => simp [alSet, alGet, List.find?, hkk]
  | cons e t ih =>
    by_cases he : e.1 = k
    · subst he
      simp [alSet, alGet, List.find?, hkk]
    · by_cases he' : e.1 = k'
      · simp [alSet, he, alGet, List.find?, he', h]
      · simpa [alSet, he, alGet, List.find?, he'] using ih

theorem alGet_mem {α : Type} {l : List (String × α)} {k : String} {v : α}
    (h : alGet l k = some v) : (k, v) ∈ l := by
  unfold alGet at h
  cases hf : l.find? (fun e => decide (e.1 = k)) with
  | none => rw [hf] at h; simp at h
  | some e =>
    rw [hf] at h
    simp at h
    have hk : e.1 = k := by
      have := List.find?_some hf
      simpa using this
    have hmem := List.mem_of_find?_eq_some hf
    have : e = (k, v) := by
      cases e with
      | mk a b =>
        simp at hk h
        simp [hk, h]
    rw [← this]
    exact hmem

/-! ## C1 — send_group by a non-member -/

/-- **C1** (counterexample): in the in-memory variant (`src/index.js`),
a `send_group` by online user `"a"` into room `"r"` whose member list is
`["b"]` leaves the state unchanged and emits **no events at all** — in
particular no Forbidden/error event is surfaced to the sender, contrary
to the claim. -/
theorem sendGroup_nonmember_no_error_cex :
    sendGroup stC1 "a" "r" "hi" 3 "t" = (stC1, []) := by
  rfl

/-- **C1** (amended): for a `send_group` whose sender is not a member of
the target room (or whose roomId is unknown), no message is persisted and
no delivery is made; the in-memory handler emits nothing (silent drop),
while the database-backed handler emits an `error` event to the sender. -/
theorem sendGroup_nonmember_rejected :
    (∀ (st : ServerState) (u rid msg : String) (pid : Nat) (ts : String),
      (∀ room, alGet st.rooms rid = some room → u ∉ room.members) →
      sendGroup st u rid msg pid ts = (st, [])) ∧
    (∀ (isM : Nat → Nat → Bool) (gm : Nat → List Nat)
        (conn : Nat → Option Nat) (uid : Nat) (uname : String)
        (sock roomId : Nat) (msg : String) (mid : Nat),
      isM roomId uid = false →
      sendGroupDb isM gm conn uid uname sock roomId msg mid =
        (false, [DbEvent.errorEv sock "Você não é membro deste grupo"])) := by
  constructor
  · intro st u rid msg pid ts h
    unfold sendGroup
    cases hr : alGet st.rooms rid with
    | none => rfl
    | some room => simp [h room hr]
  · intro isM gm conn uid uname sock roomId msg mid h
    simp [sendGroupDb, h]

/-- Witness for C1: the amended theorem applied to the concrete
non-member state `stC1` and to a membership oracle that always refuses. -/
theorem sendGroup_nonmember_rejected_witness :
    sendGroup stC1 "a" "r" "hi" 3 "t" = (stC1, []) ∧
    sendGroupDb (fun _ _ => false) (fun _ => []) (fun _ => none)
        1 "a" 1 5 "hi" 9 =
      (false, [DbEvent.errorEv 1 "Você não é membro deste grupo"]) :=
  ⟨sendGroup_nonmember_rejected.1 stC1 "a" "r" "hi" 3 "t"
      (by
        intro room hr
        have h0 : alGet stC1.rooms "r" = some roomC1 := by rfl
        rw [h0] at hr
        have hroom : roomC1 = room := Option.some_inj.mp hr
        rw [← hroom]
        decide),
   sendGroup_nonmember_rejected.2 (fun _ _ => false) (fun _ => [])
      (fun _ => none) 1 "a" 1 5 "hi" 9 rfl⟩

/-! ## C4 — create_group membership and validation -/

/-- **C4** (counterexample): `create_group` by `"a"` with member list
`["a"]` creates a room whose member list is `["a", "a"]` — the creator is
duplicated rather than deduplicated, the resulting set has only one
distinct member (< 2), and the room is nevertheless created with no
ValidationError: the emitted events are two `group_created`
notifications, not an error. -/
theorem createGroup_no_validation_cex :
    (alGet ((createGroup stA "a" "g" ["a"] "r1" 0).1).rooms "r1").map
        (fun r => r.members) = some ["a", "a"] ∧
    (createGroup stA "a" "g" ["a"] "r1" 0).2 =
      [OutEvent.groupCreated 1 "r1" "g" ["a", "a"] "a",
       OutEvent.groupCreated 1 "r1" "g" ["a", "a"] "a"] := by
  constructor <;> rfl

/-- **C4** (amended): for every `create_group` request with creator `c`
and member list `ms`, the resulting room's member list is the plain
concatenation `ms ++ [c]` — duplicates are retained, no deduplication is
performed, and the room is always created: no ValidationError is raised
even when the resulting set has fewer than 2 distinct members. -/
theorem createGroup_members_concat :
    ∀ (st : ServerState) (c gname : String) (ms : List String)
      (rid : String) (now : Nat),
      (alGet ((createGroup st c gname ms rid now).1).rooms rid).map
        (fun r => r.members) = some (ms ++ [c]) := by
  intro st c gname ms rid now
  simp [createGroup, alGet_alSet_same]

/-! ## C3 — disconnect vs. a newer connection -/

/-- **C3** (counterexample): after `"a"` registers at socket 1 and then
re-registers at socket 2, the stored handle is socket 2 (`stC3pre`), yet
the stale socket-1 session's late disconnect still marks `"a"` offline —
the handler never compares connection handles, so the claimed no-op does
not happen and the newer connection is clobbered. -/
theorem disconnect_clobbers_newer_cex :
    alGet stC3pre.users "a" =
      some { socketId := 2, online := true, avatar := none, lastSeen := 1
             status := none } ∧
    alGet stC3post.users "a" =
      some { socketId := 2, online := false, avatar := none, lastSeen := 2
             status := none } := by
  constructor <;> rfl

/-- **C3** (amended): the disconnect handler performs no handle
comparison: whenever the disconnecting socket's `currentUser` names a
still-registered user, that user is marked offline and `lastSeen`
updated — even when the user has since registered a newer connection.
The handler is a no-op only when `currentUser` is unset or the username
is no longer in the `users` map. -/
theorem disconnect_unconditional :
    (∀ (st : ServerState) (u : String) (now : Nat) (info : UserInfo),
      alGet st.users u = some info →
      alGet ((disconnectHandler st (some u) now).1).users u =
        some { info with online := false, lastSeen := now }) ∧
    (∀ (st : ServerState) (now : Nat),
      (disconnectHandler st none now).1 = st) ∧
    (∀ (st : ServerState) (u : String) (now : Nat),
      alGet st.users u = none →
      (disconnectHandler st (some u) now).1 = st) := by
  refine ⟨?_, ?_, ?_⟩
  · intro st u now info h
    simp [disconnectHandler, h, alGet_alSet_same]
  · intro st now
    rfl
  · intro st u now h
    simp [disconnectHandler, h]

/-- Witness for C3: the amended theorem applied at the concrete state
`stC3pre`, in which `"a"` is registered at socket 2. -/
theorem disconnect_unconditional_witness :
    alGet stC3post.users "a" =
      some { socketId := 2, online := false, avatar := none, lastSeen := 2
             status := none } :=
  disconnect_unconditional.1 stC3pre "a" 2
    { socketId := 2, online := true, avatar := none, lastSeen := 1
      status := none } rfl

/-! ## C2 — bounded history -/

theorem pushCapped_length_le (msgs : List Payload) (m : Payload)
    (h : msgs.length ≤ 1000) : (pushCapped msgs m).length ≤ 1000 := by
  unfold pushCapped
  by_cases h1 : 1000 < (msgs ++ [m]).length
  · rw [if_pos h1]
    simp only [List.length_drop, List.length_append, List.length_cons,
      List.length_nil]
    omega
  · rw [if_neg h1]
    simp only [List.length_append, List.length_cons, List.length_nil] at h1 ⊢
    omega

theorem pushCapped_small (msgs : List Payload) (m : Payload)
    (h : msgs.length < 1000) : pushCapped msgs m = msgs ++ [m] := by
  unfold pushCapped
  rw [if_neg]
  simp only [List.length_append, List.length_cons, List.length_nil]
  omega

/-- Iterating the capped append keeps exactly the newest entries: starting
from a buffer of at most 1000 entries, the result is the concatenation
with the oldest surplus dropped from the front. -/
theorem foldl_pushCapped_eq (ms : List Payload) :
    ∀ (s : List Payload), s.length ≤ 1000 →
      List.foldl pushCapped s ms =
        (s ++ ms).drop (s.length + ms.length - 1000) := by
  induction ms with
  | nil =>
    intro s hs
    simp only [List.foldl_nil, List.append_nil, List.length_nil,
      Nat.add_zero]
    rw [Nat.sub_eq_zero_of_le hs, List.drop_zero]
  | cons m t ih =>
    intro s hs
    rw [List.foldl_cons]
    by_cases hlen : s.length = 1000
    · have hcond : 1000 < (s ++ [m]).length := by
        simp only [List.length_append, List.length_cons, List.length_nil]
        omega
      have hpc : pushCapped s m = (s ++ [m]).drop 1 := by
        unfold pushCapped
        rw [if_pos hcond]
      have hlen2 : ((s ++ [m]).drop 1).length = 1000 := by
        simp only [List.length_drop, List.length_append, List.length_cons,
          List.length_nil]
        omega
      rw [hpc, ih _ (le_of_eq hlen2), hlen2]
      have h1 : 1 ≤ (s ++ [m]).length := by
        simp only [List.length_append, List.length_cons, List.length_nil]
        omega
      have hd : ((s ++ [m]) ++ t).drop 1 = (s ++ [m]).drop 1 ++ t :=
        List.drop_append_of_le_length h1
      rw [← hd, List.drop_drop]
      have hidx : 1 + (1000 + t.length - 1000) =
          s.length + (m :: t).length - 1000 := by
        simp only [List.length_cons]
        omega
      rw [hidx, List.append_assoc, List.singleton_append]
    · have hlt : s.length < 1000 := lt_of_le_of_ne hs hlen
      have hno : ¬(1000 < (s ++ [m]).length) := by
        simp only [List.length_append, List.length_cons, List.length_nil]
        omega
      have hpc : pushCapped s m = s ++ [m] := by
        unfold pushCapped
        rw [if_neg hno]
      have hlen2 : (s ++ [m]).length ≤ 1000 := by
        simp only [List.length_append, List.length_cons, List.length_nil]
        omega
      rw [hpc, ih _ hlen2]
      have hidx2 : (s ++ [m]).length + t.length - 1000 =
          s.length + (m :: t).length - 1000 := by
        simp only [List.length_append, List.length_cons, List.length_nil]
        omega
      rw [hidx2, List.append_assoc, List.singleton_append]

theorem historyOf_saveMessage (st : ServerState) (uid : String)
    (m : Payload) :
    historyOf (saveMessage st uid m) uid = pushCapped (historyOf st uid) m := by
  simp [historyOf, saveMessage, alGet_alSet_same]

theorem historyOf_foldl_saveMessage (ms : List Payload) :
    ∀ (st : ServerState) (uid : String),
      historyOf (List.foldl (fun s m => saveMessage s uid m) st ms) uid =
        List.foldl pushCapped (historyOf st uid) ms := by
  induction ms with
  | nil => intro st uid; rfl
  | cons m t ih =>
    intro st uid
    rw [List.foldl_cons, List.foldl_cons, ih, historyOf_saveMessage]

/-- **C2** (amended): per-user inbox histories (`saveMessage`,
`src/index.js` lines 240-253) are bounded: appending to an inbox of at
most 1000 entries leaves at most 1000 entries, and inserting 1001
messages into a fresh inbox evicts exactly the first inserted message
(FIFO) — the final history is the tail of the inserted sequence, so the
first message is absent (when not re-inserted later) and the last is
present. Group-room histories (`room.messages.push`, line 119) are
**not** bounded; see the counterexample. -/
theorem saveMessage_bounded_fifo :
    (∀ (st : ServerState) (uid : String) (m : Payload),
      (historyOf st uid).length ≤ 1000 →
      (historyOf (saveMessage st uid m) uid).length ≤ 1000) ∧
    (∀ (st : ServerState) (uid : String) (ms : List Payload)
        (m0 : Payload) (rest : List Payload),
      historyOf st uid = [] → ms = m0 :: rest → ms.length = 1001 →
      historyOf (List.foldl (fun s m => saveMessage s uid m) st ms) uid =
        rest) := by
  constructor
  · intro st uid m h
    rw [historyOf_saveMessage]
    exact pushCapped_length_le _ _ h
  · intro st uid ms m0 rest h0 hms hlen
    rw [historyOf_foldl_saveMessage, h0,
      foldl_pushCapped_eq ms [] (by simp)]
    subst hms
    simp only [List.nil_append, List.length_nil, Nat.zero_add]
    rw [hlen]
    rfl

/-- Witness for C2: the amended theorem applied to the empty-inbox state
and to a concrete 1001-message sequence `pFill :: replicate 1000 pC7`;
the surviving history is exactly the 1000-message tail. -/
theorem saveMessage_bounded_fifo_witness :
    (historyOf (saveMessage stA "a" pC7) "a").length ≤ 1000 ∧
    historyOf
        (List.foldl (fun s m => saveMessage s "a" m) stA
          (pFill :: List.replicate 1000 pC7)) "a" =
      List.replicate 1000 pC7 :=
  ⟨saveMessage_bounded_fifo.1 stA "a" pC7 (by decide),
   saveMessage_bounded_fifo.2 stA "a" (pFill :: List.replicate 1000 pC7)
      pFill (List.replicate 1000 pC7) rfl rfl
      (by rw [List.length_cons, List.length_replicate])⟩

/-- **C2** (counterexample): group-room histories are unbounded — in
state `stC2`, whose room `"r"` already holds 1000 messages, a further
member `send_group` results in 1001 stored messages for the room,
exceeding the claimed 1000-entry cap (no eviction happens on the
`room.messages.push` path, `src/index.js` line 119). -/
theorem groupHistory_unbounded_cex :
    (alGet ((sendGroup stC2 "a" "r" "hi" 7 "t").1).rooms "r").map
        (fun r => r.messages.length) = some 1001 := by
  have h0 : alGet stC2.rooms "r" = some roomC2 := rfl
  unfold sendGroup
  rw [h0]
  have hmem : "a" ∈ roomC2.members := by decide
  simp only [hmem, if_true]
  rw [alGet_alSet_same]
  simp only [Option.map_some', roomC2, List.length_append,
    List.length_replicate, List.length_cons, List.length_nil]

/-! ## C5 — group fan-out -/

theorem socketsInjective_unique {st : ServerState} (h : socketsInjective st)
    {m1 m2 : String} {i1 i2 : UserInfo}
    (h1 : alGet st.users m1 = some i1) (h2 : alGet st.users m2 = some i2)
    (hs : i1.socketId = i2.socketId) : m1 = m2 := by
  have hm1 := alGet_mem h1
  have hm2 := alGet_mem h2
  by_cases heq : ((m1, i1) : String × UserInfo) = (m2, i2)
  · exact congrArg Prod.fst heq
  · have hsym : Symmetric
        (fun (e1 e2 : String × UserInfo) => e1.2.socketId ≠ e2.2.socketId) :=
      fun _ _ hab => Ne.symm hab
    exact absurd hs (h.forall hsym hm1 hm2 heq)

theorem sendGroup_member_events (st : ServerState) (u rid msg : String)
    (pid : Nat) (ts : String) (room : Room)
    (hroom : alGet st.rooms rid = some room) (hu : u ∈ room.members) :
    (sendGroup st u rid msg pid ts).2 =
      room.members.filterMap (fun m =>
        (onlineSocketOf st m).map (fun s => OutEvent.receiveGroup s
          { pid := pid, from_ := u, target := rid, message := msg
            timestamp := ts, ptype := PType.grp })) := by
  unfold sendGroup
  rw [hroom]
  simp [hu]

theorem deliveredSockets_sendGroup (st : ServerState) (u rid msg : String)
    (pid : Nat) (ts : String) (room : Room)
    (hroom : alGet st.rooms rid = some room) (hu : u ∈ room.members) :
    deliveredSockets ((sendGroup st u rid msg pid ts).2) =
      room.members.filterMap (onlineSocketOf st) := by
  rw [sendGroup_member_events st u rid msg pid ts room hroom hu]
  unfold deliveredSockets
  rw [List.filterMap_filterMap]
  congr 1
  funext m
  cases h : onlineSocketOf st m <;> simp [h]

/-- **C5** (amended): for a message routed into a group by a member, when
the stored member list is duplicate-free and no two registered users
share a socket, the fan-out delivers at most one `receive_group` per
socket (`Nodup`), a socket receives a copy exactly when it is the stored
socket of an online entry of the member list, and a registered user who
is not a member, or who is offline, receives no copy. With a duplicated
member list (constructible via `create_group`, see the counterexample)
one online member receives several copies, so the claim as stated
fails. -/
theorem sendGroup_fanout_exact :
    ∀ (st : ServerState) (u rid msg : String) (pid : Nat) (ts : String)
      (room : Room),
      alGet st.rooms rid = some room → u ∈ room.members →
      room.members.Nodup → socketsInjective st →
      (deliveredSockets ((sendGroup st u rid msg pid ts).2)).Nodup ∧
      (∀ s : Nat,
        s ∈ deliveredSockets ((sendGroup st u rid msg pid ts).2) ↔
        ∃ m, m ∈ room.members ∧ ∃ info,
          alGet st.users m = some info ∧ info.online = true ∧
          info.socketId = s) ∧
      (∀ (v : String) (iv : UserInfo),
        alGet st.users v = some iv →
        (v ∉ room.members ∨ iv.online = false) →
        iv.socketId ∉ deliveredSockets ((sendGroup st u rid msg pid ts).2)) := by
  intro st u rid msg pid ts room hroom hu hnd hinj
  rw [deliveredSockets_sendGroup st u rid msg pid ts room hroom hu]
  have hchar : ∀ (m : String) (s : Nat),
      onlineSocketOf st m = some s ↔
      ∃ info, alGet st.users m = some info ∧ info.online = true ∧
        info.socketId = s := by
    intro m s
    unfold onlineSocketOf
    cases hg : alGet st.users m with
    | none => simp
    | some info =>
      by_cases ho : info.online
      · simp [ho]
      · simp [ho]
  refine ⟨?_, ?_, ?_⟩
  · apply List.Nodup.filterMap _ hnd
    intro a a' b hb hb'
    rw [Option.mem_def, hchar] at hb hb'
    obtain ⟨i1, hg1, ho1, hs1⟩ := hb
    obtain ⟨i2, hg2, ho2, hs2⟩ := hb'
    exact socketsInjective_unique hinj hg1 hg2 (hs1.trans hs2.symm)
  · intro s
    rw [List.mem_filterMap]
    constructor
    · rintro ⟨m, hm, hf⟩
      exact ⟨m, hm, (hchar m s).mp hf⟩
    · rintro ⟨m, hm, hinfo⟩
      exact ⟨m, hm, (hchar m s).mpr hinfo⟩
  · rintro v iv hv hcase hmem
    rw [List.mem_filterMap] at hmem
    obtain ⟨m, hm, hf⟩ := hmem
    obtain ⟨i, hg, ho, hs⟩ := (hchar m iv.socketId).mp hf
    have hveq : m = v := socketsInjective_unique hinj hg hv hs
    subst hveq
    rw [hv] at hg
    have hi : i = iv := Option.some_inj.mp hg.symm
    subst hi
    rcases hcase with hnm | hoff
    · exact hnm hm
    · rw [ho] at hoff
      cases hoff

/-- Witness for C5: the amended theorem applied to `stC5` — room `"rw"`
with duplicate-free member list `["a", "b", "c"]`, `"a"`/`"b"` online,
`"c"` offline — yields a duplicate-free delivery list. -/
theorem sendGroup_fanout_exact_witness :
    (deliveredSockets ((sendGroup stC5 "a" "rw" "hi" 9 "t").2)).Nodup :=
  (sendGroup_fanout_exact stC5 "a" "rw" "hi" 9 "t" roomC5 rfl
    (by decide) (by decide)
    (by
      unfold socketsInjective stC5
      decide)).1

/-- **C5** (counterexample): in the reachable state `stC5dup` (created by
`create_group` with creator `"a"` and members `["a"]`, so the stored
member list is `["a", "a"]`), a `send_group` by the online member `"a"`
delivers **two** copies of the message to `"a"`'s socket — not exactly
one copy per online member as claimed. -/
theorem sendGroup_duplicate_delivery_cex :
    countReceiveGroupTo ((sendGroup stC5dup "a" "r1" "hi" 9 "t").2) 1 = 2 := by
  rfl

/-! ## C6 — private-room identity (spec-modelled) -/

theorem pairKey_comm (a b : Nat) : pairKey a b = pairKey b a := by
  unfold pairKey
  by_cases hab : a ≤ b
  · by_cases hba : b ≤ a
    · have heq : a = b := Nat.le_antisymm hab hba
      subst heq
      rfl
    · rw [if_pos hab, if_neg hba]
  · have hba : b ≤ a := by omega
    rw [if_neg hab, if_pos hba]

/-- **C6**: `createOrFindPrivateRoom` is symmetric in its two arguments,
idempotent — once a call has returned a room id, any repeated call with
either ordering returns the same id and leaves the room table unchanged
(so no duplicate room is ever created for the pair) — and fails with
`ValidationError` when the two user ids are equal. -/
theorem createOrFindPrivateRoom_sym_idem :
    (∀ (st : PrivRooms) (a b : Nat),
      createOrFindPrivateRoom st a b = createOrFindPrivateRoom st b a) ∧
    (∀ (st st' : PrivRooms) (a b rid : Nat),
      createOrFindPrivateRoom st a b = Except.ok (st', rid) →
      createOrFindPrivateRoom st' a b = Except.ok (st', rid) ∧
      createOrFindPrivateRoom st' b a = Except.ok (st', rid)) ∧
    (∀ (st : PrivRooms) (a : Nat),
      createOrFindPrivateRoom st a a = Except.error "ValidationError") := by
  refine ⟨?_, ?_, ?_⟩
  · intro st a b
    unfold createOrFindPrivateRoom
    by_cases hab : a = b
    · subst hab
      rfl
    · have hba : ¬(b = a) := fun hh => hab hh.symm
      rw [if_neg hab, if_neg hba]
      simp only [pairKey_comm b a]
  · intro st st' a b rid h
    unfold createOrFindPrivateRoom at h ⊢
    by_cases hab : a = b
    · rw [if_pos hab] at h
      cases h
    · have hba : ¬(b = a) := fun hh => hab hh.symm
      rw [if_neg hab] at h
      cases hfind : st.rooms.find? (fun r => decide (r.2 = pairKey a b)) with
      | some r =>
        rw [hfind] at h
        injection h with hpair
        injection hpair with he1 he2
        subst he1
        subst he2
        refine ⟨?_, ?_⟩
        · rw [if_neg hab, hfind]
        · rw [if_neg hba]
          simp only [pairKey_comm b a]
          rw [hfind]
      | none =>
        rw [hfind] at h
        injection h with hpair
        injection hpair with he1 he2
        subst he2
        subst he1
        have hf2 : (({ rooms := st.rooms ++ [(st.nextId, pairKey a b)], nextId := st.nextId + 1 } : PrivRooms)).rooms.find? (fun r => decide (r.2 = pairKey a b)) = some (st.nextId, pairKey a b) := by
          show (st.rooms ++ [(st.nextId, pairKey a b)]).find?
            (fun r => decide (r.2 = pairKey a b)) = some (st.nextId, pairKey a b)
          rw [List.find?_append, hfind]
          simp [List.find?]
        refine ⟨?_, ?_⟩
        · rw [if_neg hab, hf2]
        · rw [if_neg hba]
          simp only [pairKey_comm b a]
          rw [hf2]
  · intro st a
    unfold createOrFindPrivateRoom
    rw [if_pos rfl]

/-- Witness for C6: after the first call on the empty table creates room
0 for the pair (1, 2), a second call with either ordering returns room 0
and leaves the table unchanged. -/
theorem createOrFindPrivateRoom_sym_idem_witness :
    createOrFindPrivateRoom ⟨[(0, (1, 2))], 1⟩ 1 2 =
      Except.ok (⟨[(0, (1, 2))], 1⟩, 0) ∧
    createOrFindPrivateRoom ⟨[(0, (1, 2))], 1⟩ 2 1 =
      Except.ok (⟨[(0, (1, 2))], 1⟩, 0) :=
  createOrFindPrivateRoom_sym_idem.2.1 ⟨[], 0⟩ ⟨[(0, (1, 2))], 1⟩ 1 2 0 rfl

/-! ## C7 — send_private to an unknown target -/

/-- **C7** (counterexample): in the in-memory variant, a `send_private`
from registered user `"a"` to the unknown username `"ghost"` raises no
error at all: the payload is persisted into both `"a"`'s and `"ghost"`'s
inboxes and the sender is acknowledged with `message_sent` — contrary to
the claimed UserNotFound error with no persistence. -/
theorem sendPrivate_unknown_no_error_cex :
    sendPrivate stA "a" 1 "ghost" "hi" 5 "t" =
      ({ users := [("a", uOnline1)], rooms := []
         messageHistory := [("a", [pC7]), ("ghost", [pC7])] },
       [OutEvent.messageSent 1 pC7]) := by
  rfl

/-- **C7** (amended): only the database-backed variant checks the target:
there an unresolvable username yields an `error` event with nothing
persisted or delivered. The in-memory variant performs no check — the
message is saved to the sender's and the target name's inboxes, no
delivery happens (no stored connection), no error is emitted, and the
sender still receives `message_sent`. -/
theorem sendPrivate_unknown_target :
    (∀ (findBy : String → Option Nat) (conn : Nat → Option Nat)
        (uname : String) (sock : Nat) (toU msg : String) (mid : Nat),
      findBy toU = none →
      sendPrivateDb findBy conn uname sock toU msg mid =
        (false, [DbEvent.errorEv sock "Usuário não encontrado"])) ∧
    (∀ (st : ServerState) (u : String) (sock : Nat) (toU msg : String)
        (pid : Nat) (ts : String),
      alGet st.users toU = none → u ≠ toU →
      (historyOf st toU).length < 1000 →
      (sendPrivate st u sock toU msg pid ts).2 =
        [OutEvent.messageSent sock
          { pid := pid, from_ := u, target := toU, message := msg
            timestamp := ts, ptype := PType.priv }] ∧
      historyOf (sendPrivate st u sock toU msg pid ts).1 toU =
        historyOf st toU ++
          [{ pid := pid, from_ := u, target := toU, message := msg
             timestamp := ts, ptype := PType.priv }]) := by
  constructor
  · intro findBy conn uname sock toU msg mid h
    unfold sendPrivateDb
    rw [h]
  · intro st u sock toU msg pid ts hto hne hlen
    constructor
    · show (match alGet st.users toU with
        | some info =>
            if info.online then
              [OutEvent.receivePrivate info.socketId _]
            else []
        | none => []) ++ [OutEvent.messageSent sock _] = _
      rw [hto]
      rfl
    · show historyOf (saveMessage (saveMessage st u _) toU _) toU = _
      rw [historyOf_saveMessage]
      have hother : historyOf (saveMessage st u
          { pid := pid, from_ := u, target := toU, message := msg
            timestamp := ts, ptype := PType.priv }) toU = historyOf st toU := by
        unfold historyOf saveMessage
        rw [alGet_alSet_other _ _ _ _ (Ne.symm hne)]
      rw [hother]
      unfold pushCapped
      rw [if_neg]
      simp only [List.length_append, List.length_cons, List.length_nil]
      omega

/-- Witness for C7: the amended theorem applied to a repository with no
users (DB variant) and to the concrete state `stA` with unknown target
`"ghost"` (in-memory variant). -/
theorem sendPrivate_unknown_target_witness :
    sendPrivateDb (fun _ => none) (fun _ => none) "a" 1 "ghost" "hi" 7 =
      (false, [DbEvent.errorEv 1 "Usuário não encontrado"]) ∧
    (sendPrivate stA "a" 1 "ghost" "hi" 5 "t").2 =
      [OutEvent.messageSent 1 pC7] :=
  ⟨sendPrivate_unknown_target.1 (fun _ => none) (fun _ => none)
      "a" 1 "ghost" "hi" 7 rfl,
   (sendPrivate_unknown_target.2 stA "a" 1 "ghost" "hi" 5 "t"
      rfl (by decide) (by decide)).1⟩

/-! ## C8 — presence lists -/

/-- **C8** (counterexample): the database-backed variant's presence
refresh (`broadcastUsersList`) sends one identical list to every
connected socket: with users `"a"` (socket 1) and `"b"` (socket 2) both
online, socket 1 — the viewer `"a"` — receives a list that contains
`"a"` themself, contrary to the claimed viewer exclusion. -/
theorem broadcast_includes_viewer_cex :
    broadcastUsersList dbUsersC8 [1, 2] =
      [(1, dbUsersC8), (2, dbUsersC8)] ∧
    ({ uid := 1, username := "a", online := true } : DbUser) ∈ dbUsersC8 := by
  constructor
  · rfl
  · decide

/-- **C8** (amended): in the in-memory variant (`sendUserLists`,
`src/index.js`), each viewer's `user_list` excludes the viewer and
includes every other registered user with their online flag, last-seen
timestamp, avatar and status (default `"available"`), offline users
appearing with `online = false`; and each registered viewer is sent
exactly their own filtered list. The database-backed variant instead
broadcasts one shared online-user list to all sockets without viewer
exclusion (see the counterexample). -/
theorem userList_excludes_viewer :
    (∀ (st : ServerState) (viewer : String) (entry : UserListEntry),
      entry ∈ userListFor st viewer → entry.username ≠ viewer) ∧
    (∀ (st : ServerState) (viewer v : String) (info : UserInfo),
      (v, info) ∈ st.users → v ≠ viewer →
      ({ username := v, online := info.online, lastSeen := info.lastSeen
         avatar := info.avatar, status := info.status.getD "available" }
        : UserListEntry) ∈ userListFor st viewer) ∧
    (∀ (st : ServerState) (viewer : String) (info : UserInfo),
      (viewer, info) ∈ st.users →
      OutEvent.userList info.socketId (userListFor st viewer) ∈
        sendUserLists st) := by
  refine ⟨?_, ?_, ?_⟩
  · intro st viewer entry hmem
    unfold userListFor at hmem
    rw [List.mem_map] at hmem
    obtain ⟨e, he, hentry⟩ := hmem
    rw [List.mem_filter] at he
    have hne : e.1 ≠ viewer := by
      have := he.2
      simpa using this
    rw [← hentry]
    exact hne
  · intro st viewer v info hmem hne
    unfold userListFor
    rw [List.mem_map]
    refine ⟨(v, info), ?_, rfl⟩
    rw [List.mem_filter]
    exact ⟨hmem, by simpa using hne⟩
  · intro st viewer info hmem
    unfold sendUserLists
    rw [List.mem_map]
    exact ⟨(viewer, info), hmem, rfl⟩

/-- Witness for C8: in state `stC5`, viewer `"a"`'s list contains the
entry for the other online user `"b"` with its stored fields. -/
theorem userList_excludes_viewer_witness :
    ({ username := "b", online := true, lastSeen := 0, avatar := none
       status := "available" } : UserListEntry) ∈ userListFor stC5 "a" :=
  userList_excludes_viewer.2.1 stC5 "a" "b" uOnline2 (by decide) (by decide)

/-! ## C10 — self-addressed private message -/

/-- **C10**: a `send_private` from a registered, online user to their own
username raises no error: the payload is appended twice to the user's own
inbox (once as sender, once as recipient — assuming the inbox has room
for both appends below the 1000-entry cap), one `receive_private` copy is
delivered to the user's own stored socket, and the sender is acknowledged
with `message_sent`. -/
theorem sendPrivate_self :
    ∀ (st : ServerState) (u : String) (sock : Nat) (msg : String)
      (pid : Nat) (ts : String) (info : UserInfo),
      alGet st.users u = some info → info.online = true →
      (historyOf st u).length + 2 ≤ 1000 →
      (sendPrivate st u sock u msg pid ts).2 =
        [OutEvent.receivePrivate info.socketId
          { pid := pid, from_ := u, target := u, message := msg
            timestamp := ts, ptype := PType.priv },
         OutEvent.messageSent sock
          { pid := pid, from_ := u, target := u, message := msg
            timestamp := ts, ptype := PType.priv }] ∧
      historyOf (sendPrivate st u sock u msg pid ts).1 u =
        historyOf st u ++
          [{ pid := pid, from_ := u, target := u, message := msg
             timestamp := ts, ptype := PType.priv },
           { pid := pid, from_ := u, target := u, message := msg
             timestamp := ts, ptype := PType.priv }] := by
  intro st u sock msg pid ts info hu honline hlen
  constructor
  · show (match alGet st.users u with
      | some i =>
          if i.online then [OutEvent.receivePrivate i.socketId _] else []
      | none => []) ++ [OutEvent.messageSent sock _] = _
    rw [hu]
    simp [honline]
  · show historyOf (saveMessage (saveMessage st u _) u _) u = _
    rw [historyOf_saveMessage, historyOf_saveMessage]
    rw [pushCapped_small (historyOf st u) _ (by omega)]
    rw [pushCapped_small _ _ (by
      simp only [List.length_append, List.length_cons, List.length_nil]
      omega)]
    rw [List.append_assoc]
    rfl

/-- Witness for C10: user `"a"` (online at socket 1, empty inbox) sends
to their own username in state `stA`. -/
theorem sendPrivate_self_witness :
    (sendPrivate stA "a" 1 "a" "hi" 5 "t").2 =
      [OutEvent.receivePrivate 1 pC10, OutEvent.messageSent 1 pC10] ∧
    historyOf (sendPrivate stA "a" 1 "a" "hi" 5 "t").1 "a" =
      historyOf stA "a" ++ [pC10, pC10] :=
  sendPrivate_self stA "a" 1 "hi" 5 "t" uOnline1 rfl rfl (by decide)

/-! ## C9 — case-insensitive substring search -/

theorem isPrefixL_iff (n : List Char) :
    ∀ h : List Char, isPrefixL n h = true ↔ ∃ r, h = n ++ r := by
  induction n with
  | nil =>
    intro h
    simp [isPrefixL]
  | cons a as ih =>
    intro h
    cases h with
    | nil =>
      simp [isPrefixL]
    | cons b bs =>
      rw [show isPrefixL (a :: as) (b :: bs) =
          (decide (a = b) && isPrefixL as bs) from rfl]
      rw [Bool.and_eq_true, decide_eq_true_eq, ih bs]
      constructor
      · rintro ⟨hab, r, hr⟩
        exact ⟨r, by rw [hab, hr]; rfl⟩
      · rintro ⟨r, hr⟩
        rw [List.cons_append] at hr
        injection hr with h1 h2
        exact ⟨h1.symm, r, h2⟩

theorem containsSub_iff (n : List Char) :
    ∀ h : List Char, containsSub h n = true ↔ ∃ l r, h = l ++ n ++ r := by
  intro h
  induction h with
  | nil =>
    rw [show containsSub [] n = isPrefixL n [] from rfl, isPrefixL_iff]
    constructor
    · rintro ⟨r, hr⟩
      exact ⟨[], r, by simpa using hr⟩
    · rintro ⟨l, r, hr⟩
      refine ⟨r, ?_⟩
      have h2 := hr.symm
      rw [List.append_assoc] at h2
      rw [List.append_eq_nil] at h2
      rw [List.append_eq_nil] at h2
      obtain ⟨hl, hn, hrr⟩ := h2
      rw [hn, hrr]
      rfl
  | cons c t ih =>
    rw [show containsSub (c :: t) n =
        (isPrefixL n (c :: t) || containsSub t n) from rfl]
    rw [Bool.or_eq_true, isPrefixL_iff, ih]
    constructor
    · rintro (⟨r, hr⟩ | ⟨l, r, hr⟩)
      · exact ⟨[], r, by simpa using hr⟩
      · exact ⟨c :: l, r, by rw [hr]; rfl⟩
    · rintro ⟨l, r, hr⟩
      cases l with
      | nil =>
        left
        exact ⟨r, by simpa using hr⟩
      | cons x l2 =>
        right
        rw [List.cons_append, List.cons_append] at hr
        injection hr with h1 h2
        exact ⟨l2, r, h2⟩

/-- **C9**: the `search_messages` filter returns exactly the stored
messages whose lower-cased content contains the lower-cased query as a
substring — every returned message matches (case-insensitively) and no
stored match is omitted. -/
theorem searchFilter_exact :
    ∀ (msgs : List Payload) (query : String) (m : Payload),
      m ∈ searchFilter msgs query ↔
        m ∈ msgs ∧ ∃ l r, (lowerStr m.message).data =
          l ++ (lowerStr query).data ++ r := by
  intro msgs query m
  unfold searchFilter
  rw [List.mem_filter, containsSub_iff]

/-- Witness for C9: the single stored message `"hi"` is returned for the
differently-cased query `"HI"`, matching the substring characterisation
at a concrete input. -/
theorem searchFilter_exact_witness :
    pC7 ∈ searchFilter [pC7] "HI" ↔
      pC7 ∈ [pC7] ∧ ∃ l r, (lowerStr pC7.message).data =
        l ++ (lowerStr "HI").data ++ r :=
  searchFilter_exact [pC7] "HI" pC7

end Chat
